import Mathlib

/-!
Verification of the DDB-Project master/slave MySQL replication system
(`master.go` and the slave client) against its natural-language
specification.  The Go code is shallowly embedded: every pure string
transformation is translated to an executable Lean function over
`String`/`List Char`, socket sends are modelled as lists of emitted
protocol messages, the database is modelled as an explicit value
(list of tables with their DDL, column names and rows), and fallible
or panicking Go code returns `Option`.
-/

/-- The single-quote character `'` (ASCII 39), used by the SQL escaping in
`master.go` and by the slave's error-message splitting. -/
def squote : Char := Char.ofNat 39

/-- The backtick character (ASCII 96) removed by the slave's
`executeCreateTable` before running a received DDL. -/
def backtick : Char := Char.ofNat 96

/-- Embedding of Go `strings.HasPrefix` (over char lists, pattern first). -/
def strStartsWithU : List Char → List Char → Bool
  | [], _ => true
  | _ :: _, [] => false
  | p :: ps, c :: cs => p = c && strStartsWithU ps cs

/-- Embedding of Go `strings.HasPrefix` on `String`. -/
def goStartsWith (s p : String) : Bool := strStartsWithU p.data s.data

/-- Helper for `goContains`: does `sub` occur inside the second list? -/
def hasSubAux (sub : List Char) : List Char → Bool
  | [] => sub.isEmpty
  | c :: cs => strStartsWithU sub (c :: cs) || hasSubAux sub cs

/-- Embedding of Go `strings.Contains`. -/
def goContains (s sub : String) : Bool := hasSubAux sub.data s.data

/-- Does the string contain the given character (Go `strings.Contains` with a
one-character pattern, and Go `strings.ContainsRune`). -/
def goContainsChar (s : String) (c : Char) : Bool := s.data.any fun x => x = c

/-- Embedding of Go `strings.ToUpper` (ASCII; the SQL text handled by the
repository is ASCII). -/
def goToUpper (s : String) : String := ⟨s.data.map Char.toUpper⟩

/-- Embedding of Go `strings.ReplaceAll` for a one-character pattern and a
one-character replacement, which is how the repository always calls it for
newline and carriage-return collapsing. -/
def goReplaceAllChar (s : String) (pat rep : Char) : String :=
  ⟨s.data.map fun c => if c = pat then rep else c⟩

/-- Embedding of Go `strings.ReplaceAll(v, "'", "''")`, the SQL single-quote
escaping used when re-serializing row values. -/
def goEscapeSQ (s : String) : String :=
  ⟨s.data.flatMap fun c => if c = squote then [squote, squote] else [c]⟩

/-- Helper for `goSplitChar`, accumulating the current field in reverse. -/
def splitOnCharAux (sep : Char) : List Char → List Char → List String
  | [], acc => [⟨acc.reverse⟩]
  | c :: rest, acc =>
    if c = sep then ⟨acc.reverse⟩ :: splitOnCharAux sep rest []
    else splitOnCharAux sep rest (c :: acc)

/-- Embedding of Go `strings.Split` with a one-character separator (the
repository splits on `'`, `.` and `(` only).  Like Go, always returns at
least one piece and keeps empty pieces. -/
def goSplitChar (s : String) (sep : Char) : List String := splitOnCharAux sep s.data []

/-- Helper for `goFields`, accumulating the current field in reverse. -/
def fieldsAux : List Char → List Char → List String
  | [], acc => if acc.isEmpty then [] else [⟨acc.reverse⟩]
  | c :: rest, acc =>
    if c.isWhitespace then
      if acc.isEmpty then fieldsAux rest [] else ⟨acc.reverse⟩ :: fieldsAux rest []
    else fieldsAux rest (c :: acc)

/-- Embedding of Go `strings.Fields`: split around runs of whitespace. -/
def goFields (s : String) : List String := fieldsAux s.data []

/-- Embedding of Go `strings.TrimSpace`. -/
def goTrimSpace (s : String) : String :=
  ⟨((s.data.dropWhile Char.isWhitespace).reverse.dropWhile Char.isWhitespace).reverse⟩

/-- A wire-protocol message sent by the master to a slave, one per
newline-terminated `type:payload` line (`master.go`). -/
inductive Message where
  | initReplication (dbName : String)
  | createDb (dbName : String)
  | createTable (ddl : String)
  | syncData (stmt : String)
  | replicationComplete (payload : String)
  | replicateQuery (stmt : String)
  | notification (text : String)
  | error (text : String)
  | success (text : String)
  deriving DecidableEq, Repr

/-- A value scanned from a MySQL row in `master.go`'s data-dump loops: Go
scans into `interface{}`, and the serialization cases on `nil`, `[]byte`,
`string`, and everything else (`default`, rendered with `fmt.Sprintf("%v")`,
carried here as its rendered string). -/
inductive SqlValue where
  | null
  | bytes (b : String)
  | str (s : String)
  | raw (rendered : String)
  deriving DecidableEq, Repr

/-- Translation of the value-serialization `switch` in `sendSchemaToSlave`
and `sendTableData` (`master.go` lines 195-210 and 1086-1101): `NULL` for
nil, single-quoted with `''` escaping for byte and string values, the
default `%v` rendering otherwise. -/
def formatValue : SqlValue → String
  | SqlValue.null => "NULL"
  | SqlValue.bytes b => "'" ++ goEscapeSQ b ++ "'"
  | SqlValue.str s => "'" ++ goEscapeSQ s ++ "'"
  | SqlValue.raw v => v

/-- Translation of the `INSERT` statement construction in `sendSchemaToSlave`
and `sendTableData` (`master.go` lines 181-213 and 1072-1104). -/
def buildInsertQuery (tableName : String) (cols : List String) (vals : List SqlValue) : String :=
  "INSERT INTO " ++ tableName ++ " (" ++ String.intercalate ", " cols
    ++ ") VALUES (" ++ String.intercalate ", " (vals.map formatValue) ++ ")"

/-- One table of the master database as seen by the replication code:
its name (from the `tables` listing), its introspected DDL (the result of
`SHOW CREATE TABLE`), its column names (the result of `rows.Columns()`),
and its rows in `SELECT *` order.  The embedding is error-free: the
introspection queries are assumed to succeed, matching the claims' subject
(the message sequence produced on the successful path). -/
structure Table where
  name : String
  ddl : String
  columns : List String
  rows : List (List SqlValue)
  deriving DecidableEq, Repr

/-- The DDL payload encoding applied before sending `create_table` in
`sendSchemaToSlave` (`master.go` line 129) and `sendTableSchema` (line
1014): newlines are replaced by spaces.  (Carriage returns are NOT touched
on these two paths.) -/
def encodeDDL (tableDefinition : String) : String :=
  goReplaceAllChar tableDefinition '\n' ' '

/-- The DDL payload encoding applied in `CreateTable` (`master.go` lines
502-503) before broadcasting `create_table` for a newly created table:
newlines AND carriage returns are replaced by spaces. -/
def createTableEncode (tableDefinition : String) : String :=
  goReplaceAllChar (goReplaceAllChar tableDefinition '\n' ' ') '\r' ' '

/-- Translation of the batched data-dump loop shared by `sendSchemaToSlave`
(`master.go` lines 148-222) and `sendTableData` (lines 1039-1113): rows are
fetched `LIMIT 100 OFFSET k` for k = 0, 100, ... and each row is sent as one
`sync_data` INSERT message.  The row list stands for the stable `SELECT *`
result, so the LIMIT/OFFSET pagination is chunking of that list. -/
def syncDataBatches (tableName : String) (cols : List String) :
    List (List SqlValue) → List Message
  | [] => []
  | r :: rest =>
    (((r :: rest).take 100).map fun row => Message.syncData (buildInsertQuery tableName cols row))
      ++ syncDataBatches tableName cols ((r :: rest).drop 100)
termination_by rows => rows.length
decreasing_by
  simp [List.length_drop]
  omega

/-- The batch-of-100 chunking of a list, written from the spec's wording
"paginated in batches of 100 rows"; compared against the source-translated
`syncDataBatches`. -/
def chunks100 : List α → List (List α)
  | [] => []
  | a :: t => ((a :: t).take 100) :: chunks100 ((a :: t).drop 100)
termination_by l => l.length
decreasing_by
  simp [List.length_drop]
  omega

/-- Translation of `sendSchemaToSlave` (`master.go` lines 107-228): the full
bootstrap sequence written to a newly accepted slave connection, before
`handleSlaveConnection` enters its request loop. -/
def sendSchemaToSlave (dbName : String) (tables : List Table) : List Message :=
  [Message.initReplication dbName, Message.createDb dbName]
    ++ (tables.flatMap fun t =>
          Message.createTable (encodeDDL t.ddl) :: syncDataBatches t.name t.columns t.rows)
    ++ [Message.replicationComplete "done"]

/-- Translation of `sendTableSchema` (`master.go` lines 992-1020) together
with `sendTableData` (lines 1023-1114): the messages written in answer to a
`get_table_schema:<name>` request.  `TableExists` (a `SHOW TABLES LIKE`
probe) is modelled as exact-name membership in the table list. -/
def sendTableSchema (tableName : String) (tables : List Table) : List Message :=
  match tables.find? fun t => t.name == tableName with
  | none => [Message.error ("table '" ++ tableName ++ "' does not exist on master")]
  | some t => Message.createTable (encodeDDL t.ddl) :: syncDataBatches t.name t.columns t.rows

/-- Result of `db.Exec` for a statement submitted by a slave. -/
inductive ExecResult where
  | ok
  | failed (msg : String)
  deriving DecidableEq, Repr

/-- What `executeQuery` (`master.go` lines 318-335) writes: one reply to the
requesting connection and a list of `(connection, message)` broadcasts. -/
structure QueryOutcome where
  reply : Message
  broadcasts : List (Nat × Message)
  deriving DecidableEq, Repr

/-- Translation of `executeQuery` (`master.go` lines 318-335): execute the
statement; on failure reply `error:<detail>` and stop; on success reply
`success:query executed` and, under the registry lock, send
`replicate_query:<stmt>` to every registered connection other than the
requester.  Connections are modelled as `Nat` handles; `registry` is the
value set of the `slaves` map. -/
def executeQuery (query : String) (res : ExecResult) (registry : List Nat)
    (requester : Nat) : QueryOutcome :=
  match res with
  | ExecResult.failed e => ⟨Message.error e, []⟩
  | ExecResult.ok =>
      ⟨Message.success "query executed",
       (registry.filter fun c => c != requester).map fun c => (c, Message.replicateQuery query)⟩

/-- Per-table verdict of the consistency checker (the printed MATCH /
MISMATCH / MISSING / EXTRA lines of `compareReplication`). -/
inductive TableStatus where
  | Match
  | Mismatch
  | Missing
  | Extra
  deriving DecidableEq, Repr

/-- The verdict `compareReplication` prints for one master-side table
(slave file lines 403-420): MISSING if absent locally, MISMATCH if the
counts differ, MATCH otherwise. -/
def classifyMaster (localTables : List (String × Nat)) (name : String)
    (masterCount : Nat) : TableStatus :=
  match localTables.lookup name with
  | none => TableStatus.Missing
  | some localCount =>
      if localCount ≠ masterCount then TableStatus.Mismatch else TableStatus.Match

/-- Translation of `compareReplication` (slave file lines 367-436): classify
every master-reported table, then mark local tables unknown to the master as
EXTRA; `allMatch` starts true and is cleared by every MISSING, MISMATCH or
EXTRA line, so the final SYNCHRONIZED verdict is that every classification
is `Match`.  The Go maps are modelled as association lists; the source
function only runs `SHOW TABLES` and `SELECT COUNT(*)` reads, so it is
embedded as a pure function of the two count maps. -/
def compareReplication (masterTables localTables : List (String × Nat)) :
    List (String × TableStatus) × Bool :=
  let masterSide := masterTables.map fun p => (p.1, classifyMaster localTables p.1 p.2)
  let localSide :=
    (localTables.filter fun p => (masterTables.lookup p.1).isNone).map
      fun p => (p.1, TableStatus.Extra)
  let results := masterSide ++ localSide
  (results, results.all fun r => r.2 == TableStatus.Match)

/-- Classification of one table name written from the spec's words
("Match — present both sides, equal counts; Mismatch — present both sides,
counts differ; Missing — present on master, absent locally; Extra — present
locally, absent on master"), to be compared with the source-translated
`compareReplication`. -/
def specStatus (masterTables localTables : List (String × Nat)) (name : String) :
    Option TableStatus :=
  match masterTables.lookup name, localTables.lookup name with
  | some mc, some lc =>
      some (if mc = lc then TableStatus.Match else TableStatus.Mismatch)
  | some _, none => some TableStatus.Missing
  | none, some _ => some TableStatus.Extra
  | none, none => none

/-- Effect of one slave receive-loop message handler: the lines it writes
back to the master and the statements it queues for later replay (the
source never queues anything, which this field makes checkable). -/
structure SlaveAction where
  toMaster : List String
  queued : List String
  deriving DecidableEq, Repr

/-- Translation of the `sync_data` case of `listenToMaster` (slave file
lines 219-241).  `execErr` is the error string of `executeLocalQuery`
(`none` on success).  On an error containing `Error 1146`, if the statement
is INSERT-shaped (`INSERT INTO` prefix after upper-casing, at least three
whitespace fields) the table token (third field, truncated at `(`) is sent
back as a `get_table_schema` request; in every case the failed statement is
dropped and the loop continues (`some` result; this handler cannot panic). -/
def handleSyncData (content : String) (execErr : Option String) : Option SlaveAction :=
  match execErr with
  | none => some ⟨[], []⟩
  | some e =>
    if goContains e "Error 1146" then
      if goStartsWith (goToUpper content) "INSERT INTO" then
        let parts := goFields content
        if parts.length ≥ 3 then
          let tableName := goTrimSpace (parts.getD 2 "")
          let tableName := (goSplitChar tableName '(').headD ""
          some ⟨["get_table_schema:" ++ tableName], []⟩
        else some ⟨[], []⟩
      else some ⟨[], []⟩
    else some ⟨[], []⟩

/-- Translation of the error path of the `replicate_query` case of
`listenToMaster` (slave file lines 247-267).  On an error containing both
`Error 1146` and `doesn't exist`, the error text is split on single quotes;
with at least four segments the code evaluates
`strings.Split(errParts[3], ".")[1]` — indexing element 1, which panics
(`none`) when the fourth segment contains no `.`.  Otherwise the failed
statement is dropped and the loop continues (`some`). -/
def handleReplicateQuery (_stmt : String) (execErr : Option String) : Option SlaveAction :=
  match execErr with
  | none => some ⟨[], []⟩
  | some e =>
    if goContains e "Error 1146" && goContains e "doesn't exist" then
      let errParts := goSplitChar e squote
      if errParts.length ≥ 4 then
        match (goSplitChar (errParts.getD 3 "") '.').get? 1 with
        | none => none
        | some tableName => some ⟨["get_table_schema:" ++ tableName], []⟩
      else some ⟨[], []⟩
    else some ⟨[], []⟩

/-- Translation of the backtick stripping in `executeCreateTable` (slave
file line 115): `strings.ReplaceAll(query, "`", "")`. -/
def removeBackticks (query : String) : String :=
  ⟨query.data.filter fun c => c != backtick⟩

/-- Translation of `executeCreateTable` (slave file lines 101-147): the
statement actually passed to `db.Exec`, or `none` when the prefix
validation rejects the payload.  The post-execution existence check only
logs, so it does not change the executed statement. -/
def executeCreateTable (query : String) : Option String :=
  if goStartsWith (goToUpper query) "CREATE TABLE" then some (removeBackticks query)
  else none

/-- Translation of the `create_table` case of `listenToMaster` (slave file
lines 201-217): the payload is accepted only when it begins with
`CREATE TABLE` case-insensitively, and is then handed to
`executeCreateTable`. -/
def createTableApplied (content : String) : Option String :=
  if goStartsWith (goToUpper content) "CREATE TABLE" then executeCreateTable content
  else none

/-- The default maximum token size of a Go `bufio.Scanner`,
`bufio.MaxScanTokenSize` (64 KiB).  The Go standard library is an external
collaborator; its documented behavior is modelled, not its code. -/
def bufioMaxScanTokenSize : Nat := 64 * 1024

/-- Maximum token size of the slave's line reader (slave file lines
156-159): `scanner.Buffer(make([]byte, 0, 64*1024), 1024*1024)` sets the
maximum to the larger of the `max` argument and the buffer capacity. -/
def slaveScannerMaxToken : Nat := max (64 * 1024) (1024 * 1024)

/-- Maximum token size of the master's per-connection line reader
(`master.go` line 249): `bufio.NewScanner(conn)` with no `Buffer` call
keeps the 64 KiB default. -/
def masterScannerMaxToken : Nat := bufioMaxScanTokenSize

/-- Whether a `bufio.Scanner` with the given maximum token size delivers a
newline-terminated line of `lineLen` content bytes.  Per the documented
semantics, `Scan` fails with `ErrTooLong` when the buffer fills to the
maximum without the split function finding a token, so the content plus its
terminating newline must fit: `lineLen + 1 ≤ maxTokenSize`. -/
def scannerAcceptsLine (maxTokenSize lineLen : Nat) : Bool :=
  lineLen + 1 ≤ maxTokenSize

/-- Link state of the slave's master connection: the `connected` flag and
whether the background retry goroutine of `main` (slave file lines 726-737)
is running. -/
structure SlaveLink where
  connected : Bool
  supervisorRunning : Bool
  deriving DecidableEq, Repr

/-- The retry interval of the supervisor goroutine:
`time.Sleep(5 * time.Second)` (slave file line 732). -/
def retryIntervalSeconds : Nat := 5

/-- Translation of the connection setup in the slave's `main` (lines
726-737): dial once; on success no supervisor is started; on failure a
goroutine is spawned that retries while not connected. -/
def initialConnect (dialOk : Bool) : SlaveLink :=
  if dialOk then ⟨true, false⟩ else ⟨false, true⟩

/-- One 5-second iteration of the supervisor goroutine
(`for !connected { time.Sleep(5s); connectToMaster(addr) }`): it runs only
while spawned; it exits when `connected` is observed true; otherwise it
dials, setting `connected` on success (after which the loop condition fails
and the goroutine exits). -/
def retryTick (s : SlaveLink) (dialOk : Bool) : SlaveLink :=
  if s.supervisorRunning then
    if s.connected then ⟨s.connected, false⟩
    else if dialOk then ⟨true, false⟩
    else s
  else s

/-- The deferred cleanup of `listenToMaster` (slave file lines 150-154) on
any read failure or EOF: `connected` is cleared; no supervisor is started
and a finished one is not restarted. -/
def linkFailure (s : SlaveLink) : SlaveLink := ⟨false, s.supervisorRunning⟩

/-- A run of supervisor iterations with the given dial outcomes. -/
def retryRun (s : SlaveLink) (dials : List Bool) : SlaveLink := dials.foldl retryTick s

/-! ## Supporting lemmas -/

/-- The batched data-dump loop emits exactly one `sync_data` INSERT per row,
in row order: flattening the LIMIT/OFFSET pagination loses nothing. -/
theorem syncDataBatches_eq_map (n : String) (cols : List String) :
    ∀ rows, syncDataBatches n cols rows
      = rows.map fun r => Message.syncData (buildInsertQuery n cols r) := by
  have H : ∀ (k : Nat) (rows : List (List SqlValue)), rows.length ≤ k →
      syncDataBatches n cols rows
        = rows.map fun r => Message.syncData (buildInsertQuery n cols r) := by
    intro k
    induction k with
    | zero =>
      intro rows h
      have : rows = [] := List.length_eq_zero.mp (Nat.le_zero.mp h)
      subst this
      simp [syncDataBatches]
    | succ k ih =>
      intro rows h
      cases rows with
      | nil => simp [syncDataBatches]
      | cons r rest =>
        rw [syncDataBatches]
        rw [ih ((r :: rest).drop 100) (by simp [List.length_drop]; simp at h; omega)]
        rw [← List.map_append, List.take_append_drop]
  intro rows
  exact H rows.length rows (Nat.le_refl _)

/-- The batched data-dump loop is the batch-of-100 chunking of the row list. -/
theorem syncDataBatches_eq_chunks (n : String) (cols : List String) :
    ∀ rows, syncDataBatches n cols rows
      = (chunks100 rows).flatMap fun b =>
          b.map fun r => Message.syncData (buildInsertQuery n cols r) := by
  have H : ∀ (k : Nat) (rows : List (List SqlValue)), rows.length ≤ k →
      syncDataBatches n cols rows
        = (chunks100 rows).flatMap fun b =>
            b.map fun r => Message.syncData (buildInsertQuery n cols r) := by
    intro k
    induction k with
    | zero =>
      intro rows h
      have : rows = [] := List.length_eq_zero.mp (Nat.le_zero.mp h)
      subst this
      simp [syncDataBatches, chunks100]
    | succ k ih =>
      intro rows h
      cases rows with
      | nil => simp [syncDataBatches, chunks100]
      | cons r rest =>
        rw [syncDataBatches, chunks100]
        rw [List.flatMap_cons]
        rw [ih ((r :: rest).drop 100) (by simp [List.length_drop]; simp at h; omega)]
  intro rows
  exact H rows.length rows (Nat.le_refl _)

/-- Every batch produced by the chunking has at most 100 rows. -/
theorem chunks100_length_le {α : Type} :
    ∀ (l : List α), ∀ b ∈ chunks100 l, b.length ≤ 100 := by
  have H : ∀ (k : Nat) (l : List α), l.length ≤ k → ∀ b ∈ chunks100 l, b.length ≤ 100 := by
    intro k
    induction k with
    | zero =>
      intro l h
      have : l = [] := List.length_eq_zero.mp (Nat.le_zero.mp h)
      subst this
      simp [chunks100]
    | succ k ih =>
      intro l h
      cases l with
      | nil => simp [chunks100]
      | cons a t =>
        rw [chunks100]
        intro b hb
        rcases List.mem_cons.mp hb with hb | hb
        · subst hb
          exact le_trans (List.length_take_le 100 (a :: t)) (Nat.le_refl 100)
        · exact ih ((a :: t).drop 100) (by simp [List.length_drop]; simp at h; omega) b hb
  intro l
  exact H l.length l (Nat.le_refl _)

theorem lookup_append_some {α β : Type} [BEq α] {l₁ : List (α × β)} (l₂ : List (α × β))
    {k : α} {v : β} (h : l₁.lookup k = some v) : (l₁ ++ l₂).lookup k = some v := by
  induction l₁ with
  | nil => simp [List.lookup] at h
  | cons p rest ih =>
    obtain ⟨a, b⟩ := p
    rw [List.cons_append, List.lookup] at *
    cases hk : (k == a) with
    | true => simp [hk] at h ⊢; exact h
    | false => simp [hk] at h ⊢; exact ih h

theorem lookup_append_none {α β : Type} [BEq α] {l₁ : List (α × β)} (l₂ : List (α × β))
    {k : α} (h : l₁.lookup k = none) : (l₁ ++ l₂).lookup k = l₂.lookup k := by
  induction l₁ with
  | nil => simp
  | cons p rest ih =>
    obtain ⟨a, b⟩ := p
    rw [List.cons_append, List.lookup] at *
    cases hk : (k == a) with
    | true => simp [hk] at h
    | false => simp [hk] at h ⊢; exact ih h

/-- Looking up in a key-preserving map of an association list. -/
theorem lookup_map_keyed {α β γ : Type} [BEq α] [LawfulBEq α] (g : α → β → γ)
    (l : List (α × β)) (k : α) :
    (l.map fun p => (p.1, g p.1 p.2)).lookup k = (l.lookup k).map (g k) := by
  induction l with
  | nil => simp [List.lookup]
  | cons p rest ih =>
    obtain ⟨a, b⟩ := p
    rw [List.map_cons, List.lookup, List.lookup]
    cases hk : (k == a) with
    | true =>
      have : k = a := eq_of_beq hk
      subst this
      simp
    | false => simpa using ih

/-- Looking up in an association list filtered by a key predicate. -/
theorem lookup_filter_key {α β : Type} [BEq α] [LawfulBEq α] (q : α → Bool)
    (l : List (α × β)) (k : α) :
    (l.filter fun p => q p.1).lookup k = if q k then l.lookup k else none := by
  induction l with
  | nil => simp [List.lookup]
  | cons p rest ih =>
    obtain ⟨a, b⟩ := p
    by_cases hq : q a
    · cases hk : (k == a) with
      | true =>
        have : k = a := eq_of_beq hk
        subst this
        simp [List.filter_cons, hq, List.lookup]
      | false =>
        simp only [List.filter_cons, hq, if_pos, List.lookup, hk]
        simpa using ih
    · cases hk : (k == a) with
      | true =>
        have hke : k = a := eq_of_beq hk
        subst hke
        simp only [List.filter_cons, Bool.not_eq_true] at *
        simp [hq, List.lookup, hk, ih]
      | false =>
        simp only [List.filter_cons] at *
        simp [hq, List.lookup, hk, ih]

/-- A single character replacement removes every occurrence of the pattern
(when the replacement differs from it). -/
theorem goReplaceAllChar_not_contains (s : String) (pat rep : Char) (hne : rep ≠ pat) :
    goContainsChar (goReplaceAllChar s pat rep) pat = false := by
  simp only [goContainsChar, goReplaceAllChar, List.any_map]
  rw [List.any_eq_false]
  intro x _
  by_cases hx : x = pat
  · simp [Function.comp, hx, hne]
  · simp [Function.comp, hx]

/-- The bootstrap/`get_table_schema` DDL encoding leaves no raw newline. -/
theorem encodeDDL_no_newline (d : String) : goContainsChar (encodeDDL d) '\n' = false :=
  goReplaceAllChar_not_contains d '\n' ' ' (by decide)

/-- The `CreateTable` broadcast encoding leaves neither newline nor
carriage return. -/
theorem createTableEncode_clean (d : String) :
    goContainsChar (createTableEncode d) '\n' = false
      ∧ goContainsChar (createTableEncode d) '\r' = false := by
  constructor
  · show goContainsChar (goReplaceAllChar (goReplaceAllChar d '\n' ' ') '\r' ' ') '\n' = false
    simp only [goContainsChar, goReplaceAllChar, List.any_map]
    rw [List.any_eq_false]
    intro x _
    by_cases hx : x = '\n'
    · simp [Function.comp, hx]
    · by_cases hr : x = '\r' <;> simp [Function.comp, hx, hr]
  · exact goReplaceAllChar_not_contains _ '\r' ' ' (by decide)

/-- Every message produced by the data-dump loop is a `sync_data` INSERT. -/
theorem mem_syncDataBatches (n : String) (cols : List String)
    (rows : List (List SqlValue)) (msg : Message) (h : msg ∈ syncDataBatches n cols rows) :
    ∃ r ∈ rows, msg = Message.syncData (buildInsertQuery n cols r) := by
  rw [syncDataBatches_eq_map] at h
  obtain ⟨r, hr, he⟩ := List.mem_map.mp h
  exact ⟨r, hr, he.symm⟩

/-- Every `create_table` payload of the bootstrap sequence is an encoded
DDL of one of the tables. -/
theorem bootstrap_createTable_payload (db : String) (ts : List Table) (d : String)
    (h : Message.createTable d ∈ sendSchemaToSlave db ts) :
    ∃ t ∈ ts, d = encodeDDL t.ddl := by
  simp only [sendSchemaToSlave, List.append_assoc, List.mem_append, List.mem_cons,
    List.mem_singleton] at h
  rcases h with h | h
  · rcases h with h | h
    · exact absurd h (by simp)
    · exact absurd h (by simp)
  rcases h with h | h
  · obtain ⟨t, ht, hmem⟩ := List.mem_flatMap.mp h
    rcases List.mem_cons.mp hmem with he | he
    · exact ⟨t, ht, (Message.createTable.injEq _ _ ▸ he.symm ▸ rfl : d = encodeDDL t.ddl)⟩
    · obtain ⟨r, _, habs⟩ := mem_syncDataBatches _ _ _ _ he
      exact absurd habs (by simp)
  · exact absurd h (by simp)

/-- The backtick filter leaves no backtick in the executed statement. -/
theorem removeBackticks_no_backtick (q : String) :
    goContainsChar (removeBackticks q) backtick = false := by
  simp only [goContainsChar, removeBackticks]
  rw [List.any_eq_false]
  intro x hx
  have := List.of_mem_filter hx
  simp only [bne_iff_ne, ne_eq, decide_eq_true_eq] at this
  simp [this]

/-- Stripping backticks changes a statement that contains one. -/
theorem removeBackticks_ne (q : String) (h : goContainsChar q backtick = true) :
    removeBackticks q ≠ q := by
  intro he
  have hd : (removeBackticks q).data = q.data := congrArg String.data he
  have h1 : goContainsChar (removeBackticks q) backtick = true := by
    simp only [goContainsChar, hd]
    exact h
  rw [removeBackticks_no_backtick] at h1
  exact Bool.false_ne_true h1

/-- A finished (never-spawned or exited) supervisor performs no dial,
whatever outcomes would have been available. -/
theorem retryRun_stopped (s : SlaveLink) (h : s.supervisorRunning = false) :
    ∀ dials, retryRun s dials = s := by
  intro dials
  induction dials with
  | nil => rfl
  | cons d rest ih =>
    show retryRun (retryTick s d) rest = s
    rw [show retryTick s d = s by simp [retryTick, h]]
    exact ih

/-- The spawned supervisor is still retrying after any number of failed
dials: no retry cap, no backoff change. -/
theorem retryRun_all_fail :
    ∀ n, retryRun ⟨false, true⟩ (List.replicate n false) = ⟨false, true⟩ := by
  intro n
  induction n with
  | zero => rfl
  | succ n ih =>
    rw [List.replicate_succ]
    show retryRun (retryTick ⟨false, true⟩ false) (List.replicate n false) = _
    rw [show retryTick ⟨false, true⟩ false = ⟨false, true⟩ from rfl]
    exact ih

/-- After any number of failed dials, the first successful dial connects and
stops the supervisor. -/
theorem retryRun_first_success (n : Nat) :
    retryRun ⟨false, true⟩ (List.replicate n false ++ [true]) = ⟨true, false⟩ := by
  show List.foldl retryTick _ _ = _
  rw [List.foldl_append]
  rw [show List.foldl retryTick ⟨false, true⟩ (List.replicate n false) = ⟨false, true⟩
    from retryRun_all_fail n]
  rfl

/-- Pointwise-equal functions give equal `flatMap`s. -/
theorem flatMap_congr_fun {α β : Type} (l : List α) (f g : α → List β) (h : ∀ a, f a = g a) :
    l.flatMap f = l.flatMap g := by
  rw [funext h]

/-! ## Claim theorems -/

/-- C1: for every newly accepted slave connection the master sends exactly
`init_replication:<dbName>`, `create_db:<dbName>`, then for each known table
in listing order `create_table:<ddl>` (newlines collapsed) followed by that
table's rows serialized as `sync_data` INSERT statements paginated in
batches of 100 rows (NULL for nil, single-quoted with `''` escaping for
string and byte values, default stringification otherwise — the cases of
`formatValue`), and finally `replication_complete:done`: the sequence equals
the batch-of-100 chunked rendering, equals the flat per-row rendering, and
every chunk has at most 100 rows. -/
theorem c1_bootstrap_sequence (dbName : String) (tables : List Table) :
    sendSchemaToSlave dbName tables
      = [Message.initReplication dbName, Message.createDb dbName]
          ++ (tables.flatMap fun t =>
                Message.createTable (encodeDDL t.ddl)
                  :: (chunks100 t.rows).flatMap fun batch =>
                       batch.map fun r =>
                         Message.syncData (buildInsertQuery t.name t.columns r))
          ++ [Message.replicationComplete "done"]
    ∧ sendSchemaToSlave dbName tables
      = [Message.initReplication dbName, Message.createDb dbName]
          ++ (tables.flatMap fun t =>
                Message.createTable (encodeDDL t.ddl)
                  :: t.rows.map fun r =>
                       Message.syncData (buildInsertQuery t.name t.columns r))
          ++ [Message.replicationComplete "done"]
    ∧ (∀ t ∈ tables, ∀ b ∈ chunks100 t.rows, b.length ≤ 100) := by
  refine ⟨?_, ?_, ?_⟩
  · simp only [sendSchemaToSlave]
    rw [flatMap_congr_fun tables _ _ fun t => by rw [syncDataBatches_eq_chunks]]
  · simp only [sendSchemaToSlave]
    rw [flatMap_congr_fun tables _ _ fun t => by rw [syncDataBatches_eq_map]]
  · intro t _ b hb
    exact chunks100_length_le t.rows b hb

/-- Witness for C1 at a concrete database: one table, two rows
(an escaped string and a NULL). -/
theorem c1_bootstrap_sequence_witness :
    sendSchemaToSlave "db"
        [⟨"t", "CREATE TABLE t (a INT)", ["id", "a"],
          [[SqlValue.raw "1", SqlValue.str "it's"], [SqlValue.raw "2", SqlValue.null]]⟩]
      = [Message.initReplication "db", Message.createDb "db",
         Message.createTable "CREATE TABLE t (a INT)",
         Message.syncData "INSERT INTO t (id, a) VALUES (1, 'it''s')",
         Message.syncData "INSERT INTO t (id, a) VALUES (2, NULL)",
         Message.replicationComplete "done"] := by
  have h := (c1_bootstrap_sequence "db"
      [⟨"t", "CREATE TABLE t (a INT)", ["id", "a"],
        [[SqlValue.raw "1", SqlValue.str "it's"], [SqlValue.raw "2", SqlValue.null]]⟩]).2.1
  exact h.trans (by decide)

/-- C2: for a steady-state insert/update/delete from a registered slave the
master replies `success:query executed` iff execution succeeds, replies
`error:<detail>` iff execution fails with that detail, broadcasts
`replicate_query:<stmt>` to exactly the registered connections other than
the requester when execution succeeds, and broadcasts nothing on failure. -/
theorem c2_steady_state_mutation (query : String) (res : ExecResult) (registry : List Nat)
    (requester : Nat) :
    ((executeQuery query res registry requester).reply = Message.success "query executed"
        ↔ res = ExecResult.ok)
    ∧ (∀ e, (executeQuery query res registry requester).reply = Message.error e
        ↔ res = ExecResult.failed e)
    ∧ (∀ c msg, (c, msg) ∈ (executeQuery query res registry requester).broadcasts
        ↔ (res = ExecResult.ok ∧ c ∈ registry ∧ c ≠ requester
             ∧ msg = Message.replicateQuery query))
    ∧ (res ≠ ExecResult.ok → (executeQuery query res registry requester).broadcasts = []) := by
  cases res with
  | ok =>
    refine ⟨by simp [executeQuery], ?_, ?_, by simp [executeQuery]⟩
    · intro e
      simp [executeQuery]
    · intro c msg
      simp only [executeQuery, List.mem_map, List.mem_filter, bne_iff_ne, ne_eq,
        Prod.mk.injEq, true_and]
      constructor
      · rintro ⟨x, ⟨hx, hxr⟩, hxc, hm⟩
        subst hxc
        exact ⟨hx, hxr, hm.symm⟩
      · rintro ⟨hc, hcr, hm⟩
        exact ⟨c, ⟨hc, hcr⟩, rfl, hm.symm⟩
  | failed e' =>
    refine ⟨by simp [executeQuery], ?_, ?_, by simp [executeQuery]⟩
    · intro e
      simp [executeQuery]
    · intro c msg
      simp [executeQuery]

/-- Witness for C2: registry {1,2,3}, requester 2 — both other connections
receive the broadcast on success, and a failing execution broadcasts
nothing. -/
theorem c2_steady_state_mutation_witness :
    (1, Message.replicateQuery "DELETE FROM t WHERE id = 1") ∈
        (executeQuery "DELETE FROM t WHERE id = 1" ExecResult.ok [1, 2, 3] 2).broadcasts
    ∧ (executeQuery "DELETE FROM t WHERE id = 1" ExecResult.ok [1, 2, 3] 2).reply
        = Message.success "query executed"
    ∧ (executeQuery "x" (ExecResult.failed "boom") [1, 2] 1).broadcasts = [] := by
  refine ⟨?_, ?_, ?_⟩
  · exact ((c2_steady_state_mutation "DELETE FROM t WHERE id = 1" ExecResult.ok [1, 2, 3]
      2).2.2.1 1 (Message.replicateQuery "DELETE FROM t WHERE id = 1")).mpr
      ⟨rfl, by decide, by decide, rfl⟩
  · exact (c2_steady_state_mutation "DELETE FROM t WHERE id = 1" ExecResult.ok [1, 2, 3]
      2).1.mpr rfl
  · exact (c2_steady_state_mutation "x" (ExecResult.failed "boom") [1, 2] 1).2.2.2
      (by decide)

/-- C3: the checker classifies every table of the union as the spec's
four-way Match/Mismatch/Missing/Extra verdict, reports SYNCHRONIZED iff
every classification is Match, and on master counts {a:10, b:5} versus
local counts {a:10, c:3} yields a=Match, b=Missing, c=Extra and overall not
synchronized.  (The embedded function is pure: the source only issues
read-only `SHOW TABLES` / `SELECT COUNT(*)` queries.) -/
theorem c3_compare_replication (m l : List (String × Nat)) :
    (∀ name, ((compareReplication m l).1).lookup name = specStatus m l name)
    ∧ ((compareReplication m l).2 = true
        ↔ ∀ r ∈ (compareReplication m l).1, r.2 = TableStatus.Match)
    ∧ compareReplication [("a", 10), ("b", 5)] [("a", 10), ("c", 3)]
        = ([("a", TableStatus.Match), ("b", TableStatus.Missing), ("c", TableStatus.Extra)],
           false) := by
  refine ⟨?_, ?_, by decide⟩
  · intro name
    show ((m.map fun p => (p.1, classifyMaster l p.1 p.2)) ++ _).lookup name = _
    cases hm : m.lookup name with
    | some mc =>
      have h1 : (m.map fun p => (p.1, classifyMaster l p.1 p.2)).lookup name
          = some (classifyMaster l name mc) := by
        rw [lookup_map_keyed (classifyMaster l), hm]
        rfl
      rw [lookup_append_some _ h1]
      cases hl : l.lookup name with
      | some lc =>
        simp [specStatus, hm, hl, classifyMaster]
        by_cases he : lc = mc
        · subst he
          simp
        · simp [he, Ne.symm he]
      | none => simp [specStatus, hm, hl, classifyMaster]
    | none =>
      have h1 : (m.map fun p => (p.1, classifyMaster l p.1 p.2)).lookup name = none := by
        rw [lookup_map_keyed (classifyMaster l), hm]
        rfl
      rw [lookup_append_none _ h1]
      have h2 : ((l.filter fun p => (m.lookup p.1).isNone).map
          fun p => (p.1, TableStatus.Extra)).lookup name
          = ((l.filter fun p => (m.lookup p.1).isNone).lookup name).map
              fun _ => TableStatus.Extra :=
        lookup_map_keyed (fun _ _ => TableStatus.Extra) _ name
      rw [h2, lookup_filter_key (fun a => (m.lookup a).isNone) l name, hm]
      cases hl : l.lookup name with
      | some lc => simp [specStatus, hm, hl]
      | none => simp [specStatus, hm, hl]
  · show (List.all _ _ = true ↔ _)
    rw [List.all_eq_true]
    constructor
    · intro h r hr
      exact eq_of_beq (h r hr)
    · intro h r hr
      exact beq_iff_eq.mpr (h r hr)

/-- Witness for C3 at the spec's example input. -/
theorem c3_compare_replication_witness :
    (compareReplication [("a", 10), ("b", 5)] [("a", 10), ("c", 3)]).1.lookup "b"
      = specStatus [("a", 10), ("b", 5)] [("a", 10), ("c", 3)] "b"
    ∧ compareReplication [("a", 10), ("b", 5)] [("a", 10), ("c", 3)]
        = ([("a", TableStatus.Match), ("b", TableStatus.Missing), ("c", TableStatus.Extra)],
           false) := by
  refine ⟨(c3_compare_replication [("a", 10), ("b", 5)] [("a", 10), ("c", 3)]).1 "b", ?_⟩
  exact (c3_compare_replication [("a", 10), ("b", 5)] [("a", 10), ("c", 3)]).2.2

/-- C4 counterexample: a `replicate_query` whose execution fails with the
storage driver's actual missing-table error text (`Error 1146 ... Table
'db.tbl' doesn't exist`) does satisfy the claim's hypothesis, but the slave
panics (`none`) instead of sending `get_table_schema` and continuing — the
fourth single-quote segment is `t exist` (from `doesn't`), which contains no
`.`, so indexing element 1 of the one-element split aborts the loop. -/
theorem c4_counterexample :
    goContains
        "local query execution error: Error 1146 (42S02): Table 'mydb.users' doesn't exist"
        "Error 1146" = true
    ∧ handleReplicateQuery "INSERT INTO users (id) VALUES (1)"
        (some "local query execution error: Error 1146 (42S02): Table 'mydb.users' doesn't exist")
        = none := by decide

/-- C4 (amended): on a `sync_data` failure containing `Error 1146` the agent
sends `get_table_schema:<name>` only when the statement is INSERT-shaped
(upper-cased `INSERT INTO` prefix, at least three whitespace fields), with
`<name>` the third field truncated at `(`; on a `replicate_query` failure
containing `Error 1146` and `doesn't exist` with at least four single-quote
segments it sends `get_table_schema:<name>` when the fourth segment splits
on `.` into a second piece `<name>`, and panics when it does not; in every
non-panicking case the failed statement is discarded — never queued — and
the loop continues (`sync_data` handling never panics). -/
theorem c4_missing_table_recovery (content e : String) :
    (goContains e "Error 1146" = true →
       goStartsWith (goToUpper content) "INSERT INTO" = true →
       (goFields content).length ≥ 3 →
       handleSyncData content (some e)
         = some ⟨["get_table_schema:"
             ++ (goSplitChar (goTrimSpace ((goFields content).getD 2 "")) '(').headD ""], []⟩)
    ∧ (goStartsWith (goToUpper content) "INSERT INTO" = false →
         handleSyncData content (some e) = some ⟨[], []⟩)
    ∧ (goContains e "Error 1146" = false →
         handleSyncData content (some e) = some ⟨[], []⟩)
    ∧ (∀ a, handleSyncData content (some e) = some a → a.queued = [])
    ∧ handleSyncData content (some e) ≠ none
    ∧ (goContains e "Error 1146" = true →
       goContains e "doesn't exist" = true →
       (goSplitChar e squote).length ≥ 4 →
       ∀ tn, (goSplitChar ((goSplitChar e squote).getD 3 "") '.').get? 1 = some tn →
         handleReplicateQuery content (some e) = some ⟨["get_table_schema:" ++ tn], []⟩)
    ∧ (∀ a, handleReplicateQuery content (some e) = some a → a.queued = []) := by
  refine ⟨?_, ?_, ?_, ?_, ?_, ?_, ?_⟩
  · intro h1 h2 h3
    simp [handleSyncData, h1, h2, h3]
  · intro h2
    simp [handleSyncData, h2]
  · intro h1
    simp [handleSyncData, h1]
  · intro a ha
    simp only [handleSyncData] at ha
    by_cases h1 : goContains e "Error 1146" <;>
      by_cases h2 : goStartsWith (goToUpper content) "INSERT INTO" <;>
      by_cases h3 : (goFields content).length ≥ 3 <;>
      simp [h1, h2, h3] at ha <;> simp [← ha]
  · simp only [handleSyncData]
    by_cases h1 : goContains e "Error 1146" <;>
      by_cases h2 : goStartsWith (goToUpper content) "INSERT INTO" <;>
      by_cases h3 : (goFields content).length ≥ 3 <;>
      simp [h1, h2, h3]
  · intro h1 h2 h3 tn htn
    simp only [handleReplicateQuery, h1, h2, Bool.and_self, if_true]
    rw [if_pos h3, htn]
  · intro a ha
    simp only [handleReplicateQuery] at ha
    by_cases h1 : (goContains e "Error 1146" && goContains e "doesn't exist") = true
    · rw [if_pos h1] at ha
      by_cases h3 : (goSplitChar e squote).length ≥ 4
      · rw [if_pos h3] at ha
        cases hg : (goSplitChar ((goSplitChar e squote).getD 3 "") '.').get? 1 with
        | none => rw [hg] at ha; cases ha
        | some tn => rw [hg] at ha; cases ha; rfl
      · rw [if_neg h3] at ha; cases ha; rfl
    · rw [if_neg h1] at ha; cases ha; rfl

/-- Witness for C4 (amended): an INSERT-shaped `sync_data` failure requests
the schema for `users`; a `replicate_query` failure whose fourth quote
segment is `b.c` requests the schema for `c`. -/
theorem c4_missing_table_recovery_witness :
    goContains "Error 1146: Table 'd.users' doesn't exist" "Error 1146" = true
    ∧ goStartsWith (goToUpper "INSERT INTO users (id) VALUES (1)") "INSERT INTO" = true
    ∧ (goFields "INSERT INTO users (id) VALUES (1)").length ≥ 3
    ∧ handleSyncData "INSERT INTO users (id) VALUES (1)"
        (some "Error 1146: Table 'd.users' doesn't exist")
        = some ⟨["get_table_schema:users"], []⟩
    ∧ handleReplicateQuery "DELETE FROM x WHERE id = 2"
        (some "Error 1146 'a' 'b.c' doesn't exist")
        = some ⟨["get_table_schema:c"], []⟩ := by
  refine ⟨by decide, by decide, by decide, ?_, ?_⟩
  · have h := (c4_missing_table_recovery "INSERT INTO users (id) VALUES (1)"
      "Error 1146: Table 'd.users' doesn't exist").1 (by decide) (by decide) (by decide)
    exact h.trans (by decide)
  · exact (c4_missing_table_recovery "DELETE FROM x WHERE id = 2"
      "Error 1146 'a' 'b.c' doesn't exist").2.2.2.2.2.1 (by decide) (by decide) (by decide)
      "c" (by decide)

/-- C5: a `get_table_schema:<name>` request for an unknown table yields a
single `error:` line and no `create_table` or `sync_data` message; for a
known table it yields that table's encoded DDL as `create_table` followed by
the full data dump as `sync_data` INSERTs with the same batch-of-100
pagination as bootstrap (chunked and flat renderings). -/
theorem c5_get_table_schema (tableName : String) (tables : List Table) :
    ((tables.find? fun t => t.name == tableName) = none →
       sendTableSchema tableName tables
         = [Message.error ("table '" ++ tableName ++ "' does not exist on master")]
       ∧ (∀ msg ∈ sendTableSchema tableName tables,
            (∀ d, msg ≠ Message.createTable d) ∧ ∀ s, msg ≠ Message.syncData s))
    ∧ (∀ t, (tables.find? fun x => x.name == tableName) = some t →
         (sendTableSchema tableName tables
           = Message.createTable (encodeDDL t.ddl)
               :: (chunks100 t.rows).flatMap fun batch =>
                    batch.map fun r => Message.syncData (buildInsertQuery t.name t.columns r))
         ∧ (sendTableSchema tableName tables
           = Message.createTable (encodeDDL t.ddl)
               :: t.rows.map fun r =>
                    Message.syncData (buildInsertQuery t.name t.columns r))) := by
  constructor
  · intro h
    have he : sendTableSchema tableName tables
        = [Message.error ("table '" ++ tableName ++ "' does not exist on master")] := by
      rw [sendTableSchema, h]
    refine ⟨he, ?_⟩
    rw [he]
    intro msg hm
    rcases List.mem_singleton.mp hm with rfl
    exact ⟨fun d => by simp, fun s => by simp⟩
  · intro t h
    have hu : sendTableSchema tableName tables
        = Message.createTable (encodeDDL t.ddl) :: syncDataBatches t.name t.columns t.rows := by
      rw [sendTableSchema, h]
    constructor
    · rw [hu, syncDataBatches_eq_chunks]
    · rw [hu, syncDataBatches_eq_map]

/-- Witness for C5: an unknown name gets only the error line; a known table
gets its DDL and its one-row dump. -/
theorem c5_get_table_schema_witness :
    (([⟨"users", "CREATE TABLE users (id INT)", ["id"],
        [[SqlValue.raw "1"]]⟩] : List Table).find? fun t => t.name == "ghost") = none
    ∧ sendTableSchema "ghost"
        [⟨"users", "CREATE TABLE users (id INT)", ["id"], [[SqlValue.raw "1"]]⟩]
        = [Message.error "table 'ghost' does not exist on master"]
    ∧ sendTableSchema "users"
        [⟨"users", "CREATE TABLE users (id INT)", ["id"], [[SqlValue.raw "1"]]⟩]
        = [Message.createTable "CREATE TABLE users (id INT)",
           Message.syncData "INSERT INTO users (id) VALUES (1)"] := by
  refine ⟨rfl, ?_, ?_⟩
  · exact ((c5_get_table_schema "ghost"
      [⟨"users", "CREATE TABLE users (id INT)", ["id"], [[SqlValue.raw "1"]]⟩]).1 rfl).1
  · have h := ((c5_get_table_schema "users"
      [⟨"users", "CREATE TABLE users (id INT)", ["id"], [[SqlValue.raw "1"]]⟩]).2
      ⟨"users", "CREATE TABLE users (id INT)", ["id"], [[SqlValue.raw "1"]]⟩ rfl).2
    exact h.trans (by decide)

/-- C6 counterexample: a DDL containing a raw carriage return is sent by
`sendTableSchema` with the carriage return intact — only newlines are
replaced on that path, refuting "every newline and carriage return ... is
replaced by a space before the message is written". -/
theorem c6_counterexample :
    sendTableSchema "t" [⟨"t", "CREATE TABLE t (\r a INT)", [], []⟩]
      = [Message.createTable "CREATE TABLE t (\r a INT)"]
    ∧ goContainsChar "CREATE TABLE t (\r a INT)" '\r' = true := by
  constructor
  · have h : sendTableSchema "t" [⟨"t", "CREATE TABLE t (\r a INT)", [], []⟩]
        = Message.createTable (encodeDDL "CREATE TABLE t (\r a INT)")
            :: syncDataBatches "t" [] [] := rfl
    rw [h, syncDataBatches_eq_map]
    decide
  · decide

/-- C6 (amended): every `create_table` payload has every raw newline
replaced by a space — on the bootstrap path, the `get_table_schema` answer
path, and the `CreateTable` broadcast path — but carriage returns are
additionally replaced only on the `CreateTable` broadcast path; the other
two paths may retain raw carriage returns. -/
theorem c6_newline_sanitization :
    (∀ d, goContainsChar (encodeDDL d) '\n' = false)
    ∧ (∀ d, goContainsChar (createTableEncode d) '\n' = false
         ∧ goContainsChar (createTableEncode d) '\r' = false)
    ∧ (∀ db ts d, Message.createTable d ∈ sendSchemaToSlave db ts →
         goContainsChar d '\n' = false)
    ∧ (∀ nm ts d, Message.createTable d ∈ sendTableSchema nm ts →
         goContainsChar d '\n' = false) := by
  refine ⟨encodeDDL_no_newline, createTableEncode_clean, ?_, ?_⟩
  · intro db ts d h
    obtain ⟨t, _, he⟩ := bootstrap_createTable_payload db ts d h
    rw [he]
    exact encodeDDL_no_newline _
  · intro nm ts d h
    cases hf : ts.find? fun t => t.name == nm with
    | none =>
      rw [sendTableSchema, hf] at h
      simp at h
    | some t =>
      rw [sendTableSchema, hf] at h
      rcases List.mem_cons.mp h with he | he
      · have hd : d = encodeDDL t.ddl := Message.createTable.inj he
        rw [hd]
        exact encodeDDL_no_newline _
      · obtain ⟨r, _, habs⟩ := mem_syncDataBatches _ _ _ _ he
        simp at habs

/-- Witness for C6 (amended): a two-newline DDL is sent on the bootstrap
path with both newlines turned into spaces. -/
theorem c6_newline_sanitization_witness :
    Message.createTable "CREATE TABLE t (   a INT)" ∈
        sendSchemaToSlave "db" [⟨"t", "CREATE TABLE t (\n\n a INT)", [], []⟩]
    ∧ goContainsChar "CREATE TABLE t (   a INT)" '\n' = false := by
  have hm : Message.createTable "CREATE TABLE t (   a INT)" ∈
      sendSchemaToSlave "db" [⟨"t", "CREATE TABLE t (\n\n a INT)", [], []⟩] := by
    simp only [sendSchemaToSlave, List.flatMap_cons, List.flatMap_nil, List.append_nil,
      syncDataBatches_eq_map, List.map_nil]
    have he : encodeDDL "CREATE TABLE t (\n\n a INT)" = "CREATE TABLE t (   a INT)" := by
      decide
    rw [he]
    simp
  exact ⟨hm, c6_newline_sanitization.2.2.1 "db"
    [⟨"t", "CREATE TABLE t (\n\n a INT)", [], []⟩] "CREATE TABLE t (   a INT)" hm⟩

/-- C7 counterexample: a line of exactly 1 MiB (1048576 bytes) of content is
rejected by the master's per-connection reader, which keeps bufio's default
64 KiB maximum token size (and even the slave's reader rejects it, since its
1 MiB maximum must also hold the newline). -/
theorem c7_counterexample :
    scannerAcceptsLine masterScannerMaxToken 1048576 = false
    ∧ scannerAcceptsLine slaveScannerMaxToken 1048576 = false
    ∧ masterScannerMaxToken = 65536 := by decide

/-- C7 (amended): the slave's receive loop accepts lines of up to 1048575
content bytes (1 MiB maximum token size set by `scanner.Buffer`), while the
master's per-connection request loop keeps the 65536-byte default and
accepts only lines of up to 65535 content bytes. -/
theorem c7_reader_limits :
    (∀ n, scannerAcceptsLine slaveScannerMaxToken n = true ↔ n < 1048576)
    ∧ (∀ n, scannerAcceptsLine masterScannerMaxToken n = true ↔ n < 65536)
    ∧ slaveScannerMaxToken = 1048576 ∧ masterScannerMaxToken = 65536 := by
  refine ⟨?_, ?_, by decide, by decide⟩
  · intro n
    simp only [scannerAcceptsLine, slaveScannerMaxToken, decide_eq_true_eq]
    omega
  · intro n
    simp only [scannerAcceptsLine, masterScannerMaxToken, bufioMaxScanTokenSize,
      decide_eq_true_eq]
    omega

/-- Witness for C7 (amended): the slave accepts a 1048575-byte line; the
master rejects a 65536-byte line. -/
theorem c7_reader_limits_witness :
    scannerAcceptsLine slaveScannerMaxToken 1048575 = true
    ∧ scannerAcceptsLine masterScannerMaxToken 65536 = false := by
  constructor
  · exact (c7_reader_limits.1 1048575).mpr (by decide)
  · have h := c7_reader_limits.2.1 65536
    have hn : ¬(65536 < 65536) := by decide
    exact Bool.eq_false_iff.mpr fun he => hn (h.mp he)

/-- C8 counterexample: after a successful initial dial and a subsequent link
failure, the slave is disconnected with no supervisor running, and even
supervisor iterations in which dialing would succeed change nothing — the
retrying does NOT resume after the established link fails, refuting "the
retrying resumes whenever the established link subsequently fails". -/
theorem c8_counterexample :
    linkFailure (initialConnect true) = ⟨false, false⟩
    ∧ retryTick (linkFailure (initialConnect true)) true = ⟨false, false⟩
    ∧ retryRun (linkFailure (initialConnect true)) [true, true, true] = ⟨false, false⟩ := by
  decide

/-- C8 (amended): only when the initial dial fails is a supervisor spawned;
it then re-attempts on the fixed 5-second interval with no retry cap and no
backoff growth while disconnected, and stops on the first successful dial;
once no supervisor is running (initial success, or after the supervisor
connected once), no dial is ever re-attempted — reconnection after a later
link failure requires the manual reconnect action. -/
theorem c8_retry_supervisor (n : Nat) :
    initialConnect false = ⟨false, true⟩
    ∧ retryRun (initialConnect false) (List.replicate n false) = ⟨false, true⟩
    ∧ retryRun (initialConnect false) (List.replicate n false ++ [true]) = ⟨true, false⟩
    ∧ (∀ s : SlaveLink, s.supervisorRunning = false → ∀ dials, retryRun s dials = s)
    ∧ initialConnect true = ⟨true, false⟩
    ∧ linkFailure ⟨true, false⟩ = ⟨false, false⟩
    ∧ retryIntervalSeconds = 5 := by
  have h0 : initialConnect false = ⟨false, true⟩ := rfl
  refine ⟨h0, ?_, ?_, ?_, rfl, rfl, rfl⟩
  · rw [h0]
    exact retryRun_all_fail n
  · rw [h0]
    exact retryRun_first_success n
  · exact fun s h dials => retryRun_stopped s h dials

/-- Witness for C8 (amended): two failed dials then a successful one reach
the connected state; a stopped supervisor ignores available dials. -/
theorem c8_retry_supervisor_witness :
    retryRun (initialConnect false) [false, false, true] = ⟨true, false⟩
    ∧ (SlaveLink.mk false false).supervisorRunning = false
    ∧ retryRun ⟨false, false⟩ [true, true] = ⟨false, false⟩ := by
  refine ⟨?_, rfl, ?_⟩
  · exact (c8_retry_supervisor 2).2.2.1
  · exact (c8_retry_supervisor 0).2.2.2.1 ⟨false, false⟩ rfl [true, true]

/-- C9: the storage driver's actual missing-table error text contains
`Error 1146` and `doesn't exist` and splits on single quotes into exactly
four segments whose fourth, `t exist`, contains no `.`; splitting it on `.`
gives a one-element list, so the slave's table-name extraction indexes
element 1 out of range and the `replicate_query` handler panics (`none`),
terminating the receive loop instead of logging and continuing. -/
theorem c9_extraction_panics :
    goContains
        "local query execution error: Error 1146 (42S02): Table 'mydb.orders' doesn't exist"
        "Error 1146" = true
    ∧ goContains
        "local query execution error: Error 1146 (42S02): Table 'mydb.orders' doesn't exist"
        "doesn't exist" = true
    ∧ (goSplitChar
        "local query execution error: Error 1146 (42S02): Table 'mydb.orders' doesn't exist"
        squote).length ≥ 4
    ∧ goContainsChar
        ((goSplitChar
            "local query execution error: Error 1146 (42S02): Table 'mydb.orders' doesn't exist"
            squote).getD 3 "") '.' = false
    ∧ (goSplitChar
        ((goSplitChar
            "local query execution error: Error 1146 (42S02): Table 'mydb.orders' doesn't exist"
            squote).getD 3 "") '.').length = 1
    ∧ handleReplicateQuery "UPDATE orders SET x = 1"
        (some "local query execution error: Error 1146 (42S02): Table 'mydb.orders' doesn't exist")
        = none := by decide

/-- C10: every `create_table` payload the slave accepts (upper-cased
`CREATE TABLE` prefix) is executed as the payload with every backtick
removed — the executed statement contains no backtick, and differs from the
received payload whenever the payload contained one. -/
theorem c10_backticks_stripped (content : String)
    (h : goStartsWith (goToUpper content) "CREATE TABLE" = true) :
    createTableApplied content = some (removeBackticks content)
    ∧ goContainsChar (removeBackticks content) backtick = false
    ∧ (goContainsChar content backtick = true → createTableApplied content ≠ some content) := by
  refine ⟨by simp [createTableApplied, executeCreateTable, h],
    removeBackticks_no_backtick content, ?_⟩
  intro hb he
  simp [createTableApplied, executeCreateTable, h] at he
  exact removeBackticks_ne content hb he

/-- Witness for C10: a backtick-quoted identifier is applied unquoted. -/
theorem c10_backticks_stripped_witness :
    goStartsWith (goToUpper "CREATE TABLE `order` (id INT)") "CREATE TABLE" = true
    ∧ createTableApplied "CREATE TABLE `order` (id INT)" = some "CREATE TABLE order (id INT)"
    ∧ createTableApplied "CREATE TABLE `order` (id INT)"
        ≠ some "CREATE TABLE `order` (id INT)" := by
  refine ⟨by decide, ?_, ?_⟩
  · have h := (c10_backticks_stripped "CREATE TABLE `order` (id INT)" (by decide)).1
    rw [h]
    decide
  · exact (c10_backticks_stripped "CREATE TABLE `order` (id INT)" (by decide)).2.2 (by decide)
